import Mathlib

/-!
Verification of the isothetic-polygon intersection engine (`utils.py`,
`grid.py`, `main.py`) against its natural-language specification.

Coordinates are modelled as exact rationals (`ℚ`).  All concrete inputs
used below have small dyadic coordinates, on which Python's binary
floating-point arithmetic is exact, so the rational model agrees with
the source on every comparison these developments depend on.
-/

/-- A 2-D point, mirroring `QPointF` (an immutable pair of coordinates,
compared exactly). -/
@[ext]
structure Point where
  x : ℚ
  y : ℚ
deriving DecidableEq, Repr

instance : Inhabited Point := ⟨⟨0, 0⟩⟩

/-- The collinearity / parallelism tolerance `1e-10` used throughout
`utils.py`. -/
def eps10 : ℚ := 1 / 10000000000

/-- The isothetic tolerance `0.001` used in `grid.py` / `main.py`. -/
def eps3 : ℚ := 1 / 1000

/-- Python `min(l)` for a nonempty list (the sources only apply it to
rings with at least one vertex; `[]` is mapped to `0`, a case the
callers never reach because rings are guarded to length ≥ 3). -/
def listMin : List ℚ → ℚ
  | [] => 0
  | h :: t => t.foldl min h

/-- Python `max(l)` for a nonempty list (see `listMin`). -/
def listMax : List ℚ → ℚ
  | [] => 0
  | h :: t => t.foldl max h

/-- The clip-polygon bounding-box membership test that `utils.py`
performs both inside `is_inside` (lines 29-32) and in the per-edge
filter of `clip_polygon` (lines 126-133):
`min(xs) <= p.x <= max(xs) and min(ys) <= p.y <= max(ys)`. -/
def inBBox (clip : List Point) (p : Point) : Bool :=
  decide (listMin (clip.map Point.x) ≤ p.x ∧ p.x ≤ listMax (clip.map Point.x) ∧
          listMin (clip.map Point.y) ≤ p.y ∧ p.y ≤ listMax (clip.map Point.y))

/-- `utils.is_inside(point, edge_start, edge_end, clip_polygon)`:
half-plane test against the directed clip edge `A → B`, oriented by
the side on which the next clip edge continues (`clip.index(B) + 1`),
with a collinear fallback onto the edge's own bounding box and, in the
generic branch, an extra restriction to the clip polygon's bounding
box.  (Python raises if `B` does not occur in `clip`; the embedding
totalises that case, which no caller reaches.) -/
def is_inside (point A B : Point) (clip : List Point) : Bool :=
  let dx := B.x - A.x
  let dy := B.y - A.y
  let px := point.x - A.x
  let py := point.y - A.y
  let next_idx := (clip.indexOf B + 1) % clip.length
  let next := clip.getD next_idx default
  let next_dx := next.x - B.x
  let next_dy := next.y - B.y
  let cross := dx * next_dy - dy * next_dx
  if |cross| < eps10 then
    decide (min A.x B.x ≤ point.x ∧ point.x ≤ max A.x B.x ∧
            min A.y B.y ≤ point.y ∧ point.y ≤ max A.y B.y)
  else
    let cross_point := dx * py - dy * px
    let halfplane := if cross > 0 then decide (cross_point ≥ -eps10)
                     else decide (cross_point ≤ eps10)
    halfplane && inBBox clip point

/-- `utils.compute_intersection(p1, p2, edge_start, edge_end, ...)`:
parametric segment-segment intersection; `none` when the denominator
is below the `1e-10` tolerance or a parameter leaves `[0,1]`.  (The
trailing `clip_polygon` parameter of the Python function is unused and
omitted.) -/
def compute_intersection (p1 p2 edge_start edge_end : Point) : Option Point :=
  let dx := p2.x - p1.x
  let dy := p2.y - p1.y
  let edx := edge_end.x - edge_start.x
  let edy := edge_end.y - edge_start.y
  let denom := dx * edy - dy * edx
  if |denom| < eps10 then none
  else
    let t := ((edge_start.x - p1.x) * edy - (edge_start.y - p1.y) * edx) / denom
    let s := ((edge_start.x - p1.x) * dy - (edge_start.y - p1.y) * dx) / denom
    if (0 ≤ t ∧ t ≤ 1) ∧ (0 ≤ s ∧ s ≤ 1) then
      some ⟨p1.x + t * dx, p1.y + t * dy⟩
    else none

/-- Modelled from the spec (§4.1 `segmentIntersect`): the standard
parametric line-line solution with denominator
`(p4.y−p3.y)(p2.x−p1.x) − (p4.x−p3.x)(p2.y−p1.y)`, parameters `ua`,
`ub`, tolerance `1e-10`, both parameters accepted on `[0,1]`
inclusive.  Reference definition used to state the refinement claim
about `compute_intersection`. -/
def segmentIntersect (p1 p2 p3 p4 : Point) : Option Point :=
  let denom := (p4.y - p3.y) * (p2.x - p1.x) - (p4.x - p3.x) * (p2.y - p1.y)
  if |denom| < eps10 then none
  else
    let ua := ((p4.x - p3.x) * (p1.y - p3.y) - (p4.y - p3.y) * (p1.x - p3.x)) / denom
    let ub := ((p2.x - p1.x) * (p1.y - p3.y) - (p2.y - p1.y) * (p1.x - p3.x)) / denom
    if (0 ≤ ua ∧ ua ≤ 1) ∧ (0 ≤ ub ∧ ub ≤ 1) then
      some ⟨p1.x + ua * (p2.x - p1.x), p1.y + ua * (p2.y - p1.y)⟩
    else none

/-- One vertex pair's contribution to the Sutherland–Hodgman inner
loop of `utils.clip_polygon` (lines 87-113): both inside → `[Q]`;
`P` inside only → the intersection point if any; `Q` inside only → the
intersection point if any, then `Q`; both outside → nothing. -/
def segContrib (clip : List Point) (A B P Q : Point) : List Point :=
  match is_inside P A B clip, is_inside Q A B clip with
  | true, true => [Q]
  | true, false => (compute_intersection P Q A B).toList
  | false, true => (compute_intersection P Q A B).toList ++ [Q]
  | false, false => []

/-- The raw output of one clip-edge pass before filtering (the inner
`for j in range(len(input_list))` loop of `clip_polygon`). -/
def edgePassRaw (clip : List Point) (A B : Point) (input : List Point) : List Point :=
  ((List.range input.length).map fun j =>
    segContrib clip A B (input.getD j default) (input.getD ((j + 1) % input.length) default)).flatten

/-- The adjacent-duplicate removal of `clip_polygon` line 134:
`[l[i] for i in range(len(l)) if i == 0 or l[i] != l[i-1]]`. -/
def dedupGo (prev : Point) : List Point → List Point
  | [] => []
  | y :: ys => if y = prev then dedupGo y ys else y :: dedupGo y ys

/-- Entry point of the adjacent-duplicate removal (keeps index 0). -/
def dedupAdj : List Point → List Point
  | [] => []
  | x :: xs => x :: dedupGo x xs

/-- One full clip-edge pass of `clip_polygon` (inner loop, then the
bounding-box filter of lines 126-133, then duplicate removal). -/
def edgePass (clip : List Point) (A B : Point) (input : List Point) : List Point :=
  dedupAdj ((edgePassRaw clip A B input).filter fun p => inBBox clip p)

/-- The state of `output_list` after the first `k` clip edges have
been processed (the outer `for i in range(len(clip_polygon))` loop of
`clip_polygon`; the `len(output_list) < 3` branch at lines 137-139
only logs a warning and `continue`s, so it does not change state). -/
def clipAfterEdges (clip subject : List Point) : Nat → List Point
  | 0 => subject
  | k + 1 =>
      edgePass clip (clip.getD k default) (clip.getD ((k + 1) % clip.length) default)
        (clipAfterEdges clip subject k)

/-- The closing step of `clip_polygon` lines 146-148: append the first
vertex when the list is nonempty and its last vertex differs from the
first. -/
def closeRing : List Point → List Point
  | [] => []
  | x :: xs => if (x :: xs).getLast (List.cons_ne_nil x xs) ≠ x then (x :: xs) ++ [x] else x :: xs

/-- `utils.clip_polygon(subject_polygon, clip_polygon)`: guard both
rings to length ≥ 3, run every clip-edge pass, return `[]` when the
final output has fewer than 3 vertices, otherwise close the ring. -/
def clip_polygon (subject_polygon clip_poly : List Point) : List Point :=
  if subject_polygon.length < 3 ∨ clip_poly.length < 3 then []
  else
    let out := clipAfterEdges clip_poly subject_polygon clip_poly.length
    if out.length < 3 then [] else closeRing out

/-- An axis-aligned rectangle, mirroring `QRectF(x, y, w, h)` with
`left = x`, `top = y`, `right = x + w`, `bottom = y + h`. -/
@[ext]
structure Rect where
  x : ℚ
  y : ℚ
  w : ℚ
  h : ℚ
deriving DecidableEq, Repr

instance : Inhabited Rect := ⟨⟨0, 0, 0, 0⟩⟩

/-- The 4-vertex ring `[(left,top), (right,top), (right,bottom),
(left,bottom)]` that `grid.py` lines 424-429 builds from a retained
rectangle before re-testing it against the next polygon. -/
def rectToRing (r : Rect) : List Point :=
  [⟨r.x, r.y⟩, ⟨r.x + r.w, r.y⟩, ⟨r.x + r.w, r.y + r.h⟩, ⟨r.x, r.y + r.h⟩]

/-- One fold step of `grid.py` lines 421-431: keep each rectangle of
the running set whole iff the pairwise grid intersection of its
4-vertex ring with the next polygon is non-empty (Python's
`any(...)` over a list of always-truthy `QRectF`s is exactly
non-emptiness).  The pairwise routine `grid_based_intersection_qt` is
imported by `grid.py` from `utils` but absent from the sources, so it
is a parameter `gbi` here; the fold's control flow does not depend on
it. -/
def foldStep (gbi : List Point → List Point → List Rect)
    (rects : List Rect) (p : List Point) : List Rect :=
  rects.filter fun r => !(gbi (rectToRing r) p).isEmpty

/-- The `for i in range(1, len(polygons))` loop of
`grid.py compute_all_polygons_intersection` (lines 412-434), already
holding a running rectangle set: guard each next polygon to ≥ 3
vertices, filter the running set through `foldStep`, and return `[]`
as soon as the running set is empty. -/
def computeLoop (gbi : List Point → List Point → List Rect)
    (rects : List Rect) : List (List Point) → List Rect
  | [] => rects
  | p :: rest =>
      if p.length < 3 then []
      else
        let next := foldStep gbi rects p
        if next.isEmpty then [] else computeLoop gbi next rest

/-- `grid.py compute_all_polygons_intersection` (lines 403-436): fewer
than 2 polygons → `[]`; either of the first two polygons shorter than
3 vertices → `[]`; otherwise seed the running set with the pairwise
grid intersection of the first two polygons and fold the rest through
`computeLoop`. -/
def compute_all_polygons_intersection (gbi : List Point → List Point → List Rect) :
    List (List Point) → List Rect
  | [] => []
  | [_] => []
  | p0 :: p1 :: rest =>
      if p0.length < 3 then []
      else if p1.length < 3 then []
      else
        let rects := gbi p0 p1
        if rects.isEmpty then [] else computeLoop gbi rects rest

/-- The three observable outcomes of `grid.py calculate_intersection`:
the "need at least two polygons" rejection, the "no common
intersection found" report, or a computed rectangle set. -/
inductive CalcOutcome where
  | needTwoPolygons : CalcOutcome
  | noCommonIntersection : CalcOutcome
  | calculated : List Rect → CalcOutcome
deriving DecidableEq, Repr

/-- `grid.py calculate_intersection` (lines 360-400), reduced to its
engine-visible behaviour (scene/pen bookkeeping dropped): fewer than 2
completed polygons → emit the "need at least two polygons" rejection
and return; otherwise compute the intersection rectangles and report
either the rectangles or "no common intersection found". -/
def calculate_intersection (gbi : List Point → List Point → List Rect)
    (completed_polygons : List (List Point)) : CalcOutcome :=
  if completed_polygons.length < 2 then .needTwoPolygons
  else
    let rects := compute_all_polygons_intersection gbi completed_polygons
    if rects.isEmpty then .noCommonIntersection else .calculated rects

/-- `grid.py is_isothetic_direction` (lines 283-285): the step from
`last_point` to `new_point` is accepted iff it is horizontal or
vertical within the `0.001` tolerance. -/
def is_isothetic_direction (last_point new_point : Point) : Bool :=
  decide (|last_point.x - new_point.x| < eps3) || decide (|last_point.y - new_point.y| < eps3)

/-- `grid.py add_polygon_point` (lines 287-310), reduced to its effect
on `polygon_points` and its boolean result (scene markers dropped):
reject a non-isothetic candidate leaving the list unchanged, else
append. -/
def add_polygon_point (polygon_points : List Point) (x y : ℚ) : Bool × List Point :=
  let new_point : Point := ⟨x, y⟩
  match polygon_points.getLast? with
  | none => (true, polygon_points ++ [new_point])
  | some last_point =>
      if ¬ is_isothetic_direction last_point new_point then (false, polygon_points)
      else (true, polygon_points ++ [new_point])

namespace Main

/-- `main.py is_isothetic_direction` (lines 365-368); same body as the
`grid.py` copy. -/
def is_isothetic_direction (last_point new_point : Point) : Bool :=
  decide (|last_point.x - new_point.x| < eps3) || decide (|last_point.y - new_point.y| < eps3)

/-- `main.py is_polygon_closed` (lines 370-376): with at least 3
vertices already placed, the candidate closes the polygon iff it is
within the `0.001` tolerance of the first vertex. -/
def is_polygon_closed (polygon_points : List Point) (new_point : Point) : Bool :=
  if 3 ≤ polygon_points.length then
    match polygon_points.head? with
    | some start_point =>
        decide (|start_point.x - new_point.x| < eps3 ∧ |start_point.y - new_point.y| < eps3)
    | none => false
  else false

/-- `main.py is_valid_isothetic_polygon` (lines 378-390): at least 4
vertices and every wrap-around consecutive pair isothetic. -/
def is_valid_isothetic_polygon (polygon_points : List Point) : Bool :=
  if polygon_points.length < 4 then false
  else (List.range polygon_points.length).all fun i =>
    is_isothetic_direction (polygon_points.getD i default)
      (polygon_points.getD ((i + 1) % polygon_points.length) default)

/-- `main.py add_polygon_point` (lines 392-436), reduced to its effect
on `polygon_points` and its boolean result: reject a non-isothetic
candidate unchanged; a closing candidate finalizes (clearing the
in-progress list) when the ring is valid and is rejected unchanged
otherwise; any other candidate is appended. -/
def add_polygon_point (polygon_points : List Point) (x y : ℚ) : Bool × List Point :=
  let new_point : Point := ⟨x, y⟩
  match polygon_points.getLast? with
  | none => (true, polygon_points ++ [new_point])
  | some last_point =>
      if ¬ is_isothetic_direction last_point new_point then (false, polygon_points)
      else if is_polygon_closed polygon_points new_point then
        if is_valid_isothetic_polygon polygon_points then (true, [])
        else (false, polygon_points)
      else (true, polygon_points ++ [new_point])

end Main

/-! ### Helper lemmas -/

lemma foldl_min_le_init (l : List ℚ) (a : ℚ) : l.foldl min a ≤ a := by
  induction l generalizing a with
  | nil => simp
  | cons h t ih => exact le_trans (ih (min a h)) (min_le_left a h)

lemma foldl_min_le_mem {l : List ℚ} {q : ℚ} (hq : q ∈ l) (a : ℚ) : l.foldl min a ≤ q := by
  induction l generalizing a with
  | nil => cases hq
  | cons h t ih =>
      rcases List.mem_cons.mp hq with rfl | hq'
      · exact le_trans (foldl_min_le_init t (min a q)) (min_le_right a q)
      · exact ih hq' (min a h)

lemma init_le_foldl_max (l : List ℚ) (a : ℚ) : a ≤ l.foldl max a := by
  induction l generalizing a with
  | nil => simp
  | cons h t ih => exact le_trans (le_max_left a h) (ih (max a h))

lemma mem_le_foldl_max {l : List ℚ} {q : ℚ} (hq : q ∈ l) (a : ℚ) : q ≤ l.foldl max a := by
  induction l generalizing a with
  | nil => cases hq
  | cons h t ih =>
      rcases List.mem_cons.mp hq with rfl | hq'
      · exact le_trans (le_max_right a q) (init_le_foldl_max t (max a q))
      · exact ih hq' (max a h)

lemma listMin_le_of_mem {l : List ℚ} {q : ℚ} (hq : q ∈ l) : listMin l ≤ q := by
  cases l with
  | nil => cases hq
  | cons h t =>
      rcases List.mem_cons.mp hq with rfl | hq'
      · exact foldl_min_le_init t q
      · exact foldl_min_le_mem hq' h

lemma le_listMax_of_mem {l : List ℚ} {q : ℚ} (hq : q ∈ l) : q ≤ listMax l := by
  cases l with
  | nil => cases hq
  | cons h t =>
      rcases List.mem_cons.mp hq with rfl | hq'
      · exact init_le_foldl_max t q
      · exact mem_le_foldl_max hq' h

lemma getD_mem_of_lt {l : List Point} {i : Nat} (h : i < l.length) (d : Point) :
    l.getD i d ∈ l := by
  induction l generalizing i with
  | nil => simp at h
  | cons x xs ih =>
      cases i with
      | zero => simp
      | succ n =>
          rw [List.getD_cons_succ]
          exact List.mem_cons_of_mem x (ih (Nat.lt_of_succ_lt_succ h) )

/-- Any point the code's `is_inside` accepts lies inside the clip
polygon's bounding box, provided the edge endpoints are clip vertices
(the collinear branch only accepts points inside the edge's own
bounding box, which the clip box contains). -/
lemma is_inside_inBBox {p A B : Point} {clip : List Point}
    (hA : A ∈ clip) (hB : B ∈ clip) (h : is_inside p A B clip = true) :
    inBBox clip p = true := by
  have hAx : listMin (clip.map Point.x) ≤ A.x := listMin_le_of_mem (List.mem_map_of_mem _ hA)
  have hBx : listMin (clip.map Point.x) ≤ B.x := listMin_le_of_mem (List.mem_map_of_mem _ hB)
  have hAx' : A.x ≤ listMax (clip.map Point.x) := le_listMax_of_mem (List.mem_map_of_mem _ hA)
  have hBx' : B.x ≤ listMax (clip.map Point.x) := le_listMax_of_mem (List.mem_map_of_mem _ hB)
  have hAy : listMin (clip.map Point.y) ≤ A.y := listMin_le_of_mem (List.mem_map_of_mem _ hA)
  have hBy : listMin (clip.map Point.y) ≤ B.y := listMin_le_of_mem (List.mem_map_of_mem _ hB)
  have hAy' : A.y ≤ listMax (clip.map Point.y) := le_listMax_of_mem (List.mem_map_of_mem _ hA)
  have hBy' : B.y ≤ listMax (clip.map Point.y) := le_listMax_of_mem (List.mem_map_of_mem _ hB)
  unfold is_inside at h
  simp only at h
  split at h
  · rw [decide_eq_true_eq] at h
    obtain ⟨h1, h2, h3, h4⟩ := h
    unfold inBBox
    rw [decide_eq_true_eq]
    refine ⟨le_trans (le_min hAx hBx) h1, le_trans h2 (max_le hAx' hBx'),
            le_trans (le_min hAy hBy) h3, le_trans h4 (max_le hAy' hBy')⟩
  · exact (Bool.and_eq_true_iff.mp h).2

lemma mem_of_mem_dedupGo {q prev : Point} {l : List Point} (h : q ∈ dedupGo prev l) : q ∈ l := by
  induction l generalizing prev with
  | nil => cases h
  | cons y ys ih =>
      unfold dedupGo at h
      split at h
      · exact List.mem_cons_of_mem y (ih h)
      · rcases List.mem_cons.mp h with rfl | h'
        · exact List.mem_cons_self q ys
        · exact List.mem_cons_of_mem y (ih h')

lemma mem_of_mem_dedupAdj {q : Point} {l : List Point} (h : q ∈ dedupAdj l) : q ∈ l := by
  cases l with
  | nil => cases h
  | cons x xs =>
      unfold dedupAdj at h
      rcases List.mem_cons.mp h with rfl | h'
      · exact List.mem_cons_self q xs
      · exact List.mem_cons_of_mem x (mem_of_mem_dedupGo h')

lemma closeRing_cons (x : Point) (xs : List Point) :
    closeRing (x :: xs) =
      if (x :: xs).getLast (List.cons_ne_nil x xs) ≠ x then (x :: xs) ++ [x] else x :: xs := rfl

lemma closeRing_head_eq_last {l : List Point} (h : l ≠ []) :
    (closeRing l).head? = (closeRing l).getLast? := by
  cases l with
  | nil => exact absurd rfl h
  | cons x xs =>
      rw [closeRing_cons]
      by_cases hc : (x :: xs).getLast (List.cons_ne_nil x xs) ≠ x
      · rw [if_pos hc, List.getLast?_concat]
        rfl
      · rw [if_neg hc]
        rw [not_not] at hc
        rw [List.getLast?_eq_getLast _ (List.cons_ne_nil x xs), hc]
        rfl

lemma length_le_closeRing (l : List Point) : l.length ≤ (closeRing l).length := by
  cases l with
  | nil => simp [closeRing]
  | cons x xs =>
      rw [closeRing_cons]
      by_cases hc : (x :: xs).getLast (List.cons_ne_nil x xs) ≠ x
      · rw [if_pos hc]
        simp
      · rw [if_neg hc]

lemma closeRing_ne_nil {l : List Point} (h : l ≠ []) : closeRing l ≠ [] := by
  cases l with
  | nil => exact absurd rfl h
  | cons x xs =>
      rw [closeRing_cons]
      by_cases hc : (x :: xs).getLast (List.cons_ne_nil x xs) ≠ x
      · rw [if_pos hc]
        simp
      · rw [if_neg hc]
        simp

/-! ### Claim theorems -/

/-- C2: in the sequential multi-polygon reduction, as soon as a fold
step empties the running rectangle set (its next polygon having passed
the ≥ 3-vertex guard), the loop returns the empty set; `rest` — the
later polygons — is universally quantified and absent from the result,
so no later polygon is processed.  Holds for every pairwise
intersection routine `gbi`. -/
theorem computeLoop_empty_step_short_circuits
    (gbi : List Point → List Point → List Rect) (rects : List Rect) (p : List Point)
    (rest : List (List Point)) (h3 : 3 ≤ p.length) (he : foldStep gbi rects p = []) :
    computeLoop gbi rects (p :: rest) = [] := by
  simp only [computeLoop]
  rw [if_neg (Nat.not_lt.mpr h3), he]
  simp

/-- C2 witness: a concrete fold step that empties the running set. -/
theorem computeLoop_empty_step_short_circuits_witness :
    3 ≤ ([(⟨0,0⟩ : Point), ⟨1,0⟩, ⟨1,1⟩] : List Point).length ∧
    foldStep (fun _ _ => []) [(⟨0,0,1,1⟩ : Rect)] [(⟨0,0⟩ : Point), ⟨1,0⟩, ⟨1,1⟩] = [] ∧
    computeLoop (fun _ _ => []) [(⟨0,0,1,1⟩ : Rect)]
      [[(⟨0,0⟩ : Point), ⟨1,0⟩, ⟨1,1⟩], [(⟨5,5⟩ : Point), ⟨6,5⟩, ⟨6,6⟩]] = [] :=
  ⟨by simp, by simp [foldStep], computeLoop_empty_step_short_circuits _ _ _ _ (by simp)
    (by simp [foldStep])⟩

/-- C3: at a fold step of the reduction, a rectangle of the running
set survives iff the pairwise grid intersection of its 4-vertex ring
(`rectToRing`, the ring `grid.py` lines 424-429 builds) with the next
polygon is non-empty; survivors are elements of the previous running
set, kept whole.  The second conjunct: when the step's result is
non-empty, the loop continues with exactly the filtered set as the new
running set. -/
theorem foldStep_survive_iff (gbi : List Point → List Point → List Rect)
    (rects : List Rect) (p : List Point) (r : Rect) (rest : List (List Point)) :
    (r ∈ foldStep gbi rects p ↔ r ∈ rects ∧ gbi (rectToRing r) p ≠ []) ∧
    (3 ≤ p.length → foldStep gbi rects p ≠ [] →
      computeLoop gbi rects (p :: rest) = computeLoop gbi (foldStep gbi rects p) rest) := by
  constructor
  · simp [foldStep, List.mem_filter, List.isEmpty_iff]
  · intro h3 hne
    simp only [computeLoop]
    rw [if_neg (Nat.not_lt.mpr h3), if_neg (by simpa [List.isEmpty_iff] using hne)]

/-- C3 witness: a concrete surviving rectangle and continuing loop. -/
theorem foldStep_survive_iff_witness :
    ((⟨0,0,1,1⟩ : Rect) ∈ foldStep (fun _ _ => [⟨0,0,1,1⟩]) [(⟨0,0,1,1⟩ : Rect)]
        [(⟨0,0⟩ : Point), ⟨1,0⟩, ⟨1,1⟩] ↔
      (⟨0,0,1,1⟩ : Rect) ∈ [(⟨0,0,1,1⟩ : Rect)] ∧
      (fun (_ : List Point) (_ : List Point) => [(⟨0,0,1,1⟩ : Rect)])
        (rectToRing ⟨0,0,1,1⟩) [(⟨0,0⟩ : Point), ⟨1,0⟩, ⟨1,1⟩] ≠ []) ∧
    computeLoop (fun _ _ => [⟨0,0,1,1⟩]) [(⟨0,0,1,1⟩ : Rect)]
        [[(⟨0,0⟩ : Point), ⟨1,0⟩, ⟨1,1⟩]] =
      computeLoop (fun _ _ => [⟨0,0,1,1⟩])
        (foldStep (fun _ _ => [⟨0,0,1,1⟩]) [(⟨0,0,1,1⟩ : Rect)]
          [(⟨0,0⟩ : Point), ⟨1,0⟩, ⟨1,1⟩]) [] :=
  ⟨(foldStep_survive_iff _ _ _ _ []).1,
   (foldStep_survive_iff _ _ _ (⟨0,0,1,1⟩ : Rect) []).2 (by simp) (by simp [foldStep])⟩

/-- C4: fewer than 2 polygons makes `calculate_intersection` report
the "need at least two polygons" rejection (a returned outcome, not an
exception — both functions are total) and
`compute_all_polygons_intersection` return the empty set, for every
pairwise routine `gbi`. -/
theorem calculate_intersection_needTwo (gbi : List Point → List Point → List Rect)
    (polys : List (List Point)) (h : polys.length < 2) :
    calculate_intersection gbi polys = CalcOutcome.needTwoPolygons ∧
    compute_all_polygons_intersection gbi polys = [] := by
  constructor
  · unfold calculate_intersection
    rw [if_pos h]
  · match polys, h with
    | [], _ => rfl
    | [p], _ => rfl
    | p0 :: p1 :: rest, h => simp at h; omega

/-- C4 witness: a single polygon is rejected, not crashed on. -/
theorem calculate_intersection_needTwo_witness :
    ([[(⟨0,0⟩ : Point), ⟨1,0⟩, ⟨1,1⟩]] : List (List Point)).length < 2 ∧
    calculate_intersection (fun _ _ => []) [[(⟨0,0⟩ : Point), ⟨1,0⟩, ⟨1,1⟩]] =
      CalcOutcome.needTwoPolygons ∧
    compute_all_polygons_intersection (fun _ _ => []) [[(⟨0,0⟩ : Point), ⟨1,0⟩, ⟨1,1⟩]] = [] :=
  ⟨by simp, (calculate_intersection_needTwo _ _ (by simp)).1,
   (calculate_intersection_needTwo _ _ (by simp)).2⟩

/-- C7: the isothetic-step validation accepts a candidate iff the step
is horizontal or vertical within `1e-3`: `|Δx| < 1/1000` or
`|Δy| < 1/1000`; the `main.py` copy agrees with the `grid.py` copy
everywhere. -/
theorem is_isothetic_direction_iff (p q : Point) :
    (is_isothetic_direction p q = true ↔
      |p.x - q.x| < 1 / 1000 ∨ |p.y - q.y| < 1 / 1000) ∧
    Main.is_isothetic_direction p q = is_isothetic_direction p q := by
  exact ⟨by simp [is_isothetic_direction, eps3], rfl⟩

/-- C10: a candidate rejected as non-isothetic from the last vertex
makes both `add_polygon_point` implementations return `False` with the
in-progress vertex list unchanged. -/
theorem add_polygon_point_reject_unchanged (points : List Point) (x y : ℚ) (last : Point)
    (hl : points.getLast? = some last)
    (hiso : is_isothetic_direction last ⟨x, y⟩ = false) :
    add_polygon_point points x y = (false, points) ∧
    Main.add_polygon_point points x y = (false, points) := by
  have hiso2 : Main.is_isothetic_direction last ⟨x, y⟩ = false := hiso
  constructor
  · simp [add_polygon_point, hl, hiso]
  · simp [Main.add_polygon_point, hl, hiso2]

/-- C10 witness: a diagonal candidate is rejected and nothing is
appended. -/
theorem add_polygon_point_reject_unchanged_witness :
    ([(⟨0,0⟩ : Point)] : List Point).getLast? = some ⟨0,0⟩ ∧
    is_isothetic_direction ⟨0,0⟩ ⟨1,1⟩ = false ∧
    add_polygon_point [(⟨0,0⟩ : Point)] 1 1 = (false, [(⟨0,0⟩ : Point)]) ∧
    Main.add_polygon_point [(⟨0,0⟩ : Point)] 1 1 = (false, [(⟨0,0⟩ : Point)]) := by
  refine ⟨rfl, ?_, ?_, ?_⟩
  · norm_num [is_isothetic_direction, eps3]
  · exact (add_polygon_point_reject_unchanged [(⟨0,0⟩ : Point)] 1 1 ⟨0,0⟩ rfl
      (by norm_num [is_isothetic_direction, eps3])).1
  · exact (add_polygon_point_reject_unchanged [(⟨0,0⟩ : Point)] 1 1 ⟨0,0⟩ rfl
      (by norm_num [is_isothetic_direction, eps3])).2

/-- C6: `compute_intersection` agrees everywhere with the spec's
`segmentIntersect` contract: `none` below the `1e-10` denominator
tolerance (the spec's denominator formula is the same number by
commutativity of multiplication), otherwise the parametric point
exactly when both solved parameters lie in `[0,1]` inclusive, `none`
when either leaves that interval. -/
theorem compute_intersection_eq_segmentIntersect (p1 p2 p3 p4 : Point) :
    compute_intersection p1 p2 p3 p4 = segmentIntersect p1 p2 p3 p4 := by
  simp only [compute_intersection, segmentIntersect]
  rw [show (p4.y - p3.y) * (p2.x - p1.x) - (p4.x - p3.x) * (p2.y - p1.y)
      = (p2.x - p1.x) * (p4.y - p3.y) - (p2.y - p1.y) * (p4.x - p3.x) from by ring,
    show (p4.x - p3.x) * (p1.y - p3.y) - (p4.y - p3.y) * (p1.x - p3.x)
      = (p3.x - p1.x) * (p4.y - p3.y) - (p3.y - p1.y) * (p4.x - p3.x) from by ring,
    show (p2.x - p1.x) * (p1.y - p3.y) - (p2.y - p1.y) * (p1.x - p3.x)
      = (p3.x - p1.x) * (p2.y - p1.y) - (p3.y - p1.y) * (p2.x - p1.x) from by ring]

/-- C8: whenever `clip_polygon` returns a non-empty result, the result
is an explicitly closed ring of at least 3 vertices: its first and
last vertices coincide (the closing step having appended the first
vertex exactly when it differed from the last). -/
theorem clip_polygon_result_closed (s c : List Point) (h : clip_polygon s c ≠ []) :
    (clip_polygon s c).head? = (clip_polygon s c).getLast? ∧ 3 ≤ (clip_polygon s c).length := by
  simp only [clip_polygon] at h ⊢
  by_cases hg : s.length < 3 ∨ c.length < 3
  · rw [if_pos hg] at h
    exact absurd rfl h
  · rw [if_neg hg] at h ⊢
    by_cases hlen : (clipAfterEdges c s c.length).length < 3
    · rw [if_pos hlen] at h
      exact absurd rfl h
    · rw [if_neg hlen] at h ⊢
      have hne : clipAfterEdges c s c.length ≠ [] := by
        intro h0
        rw [h0] at hlen
        simp at hlen
      exact ⟨closeRing_head_eq_last hne,
        le_trans (Nat.not_lt.mp hlen) (length_le_closeRing _)⟩

/-- C9: with both edge endpoints vertices of the clip ring, the inside
test returns `false` at every point outside the clip polygon's
bounding box, and every vertex retained by a clip-edge pass lies
inside that bounding box. -/
theorem is_inside_bbox_restriction (p A B : Point) (clip input : List Point)
    (hA : A ∈ clip) (hB : B ∈ clip) :
    (inBBox clip p = false → is_inside p A B clip = false) ∧
    (∀ q ∈ edgePass clip A B input, inBBox clip q = true) := by
  constructor
  · intro hbb
    cases hii : is_inside p A B clip with
    | false => rfl
    | true =>
        rw [is_inside_inBBox hA hB hii] at hbb
        cases hbb
  · intro q hq
    exact List.of_mem_filter (mem_of_mem_dedupAdj hq)

/-- C1 amended: when the intermediate output drops below 3 vertices
after a clip edge, `clip_polygon` only logs a warning and continues
with the remaining clip edges; the empty result is returned exactly
when the output after ALL clip edges have been processed has fewer
than 3 vertices. -/
theorem clip_polygon_empty_iff_final_short (s c : List Point)
    (hs : 3 ≤ s.length) (hc : 3 ≤ c.length) :
    clip_polygon s c = [] ↔ (clipAfterEdges c s c.length).length < 3 := by
  simp only [clip_polygon]
  rw [if_neg (by omega)]
  by_cases hlen : (clipAfterEdges c s c.length).length < 3
  · simp [hlen]
  · rw [if_neg hlen]
    constructor
    · intro h0
      have hne : clipAfterEdges c s c.length ≠ [] := by
        intro h1
        rw [h1] at hlen
        simp at hlen
      exact absurd h0 (closeRing_ne_nil hne)
    · intro hcon
      exact absurd hcon hlen

section ConcreteEvaluation

attribute [local semireducible] Rat.mul Rat.add Rat.sub Rat.inv

/-- C1 counterexample: after clip edge 0 (of 3) the intermediate
output has only 2 vertices, yet `clip_polygon` does not return the
empty result: the remaining edges are processed and the final result
is the non-empty ring `[(5,5), (1,1), (5,5)]`. -/
theorem clip_short_intermediate_continues_cex :
    (clipAfterEdges [⟨0,10⟩, ⟨0,0⟩, ⟨10,0⟩] [⟨9,9⟩, ⟨9,20⟩, ⟨1,1⟩] 1).length < 3 ∧
    ([(⟨0,10⟩ : Point), ⟨0,0⟩, ⟨10,0⟩] : List Point).length = 3 ∧
    clip_polygon [⟨9,9⟩, ⟨9,20⟩, ⟨1,1⟩] [⟨0,10⟩, ⟨0,0⟩, ⟨10,0⟩] = [⟨5,5⟩, ⟨1,1⟩, ⟨5,5⟩] := by
  refine ⟨by decide, by decide, by decide⟩

/-- C1 amended witness: a subject entirely outside the clip region is
clipped to an empty final output, hence the empty result. -/
theorem clip_polygon_empty_iff_final_short_witness :
    3 ≤ ([(⟨20,20⟩ : Point), ⟨21,20⟩, ⟨21,21⟩] : List Point).length ∧
    3 ≤ ([(⟨0,10⟩ : Point), ⟨0,0⟩, ⟨10,0⟩] : List Point).length ∧
    clip_polygon [⟨20,20⟩, ⟨21,20⟩, ⟨21,21⟩] [⟨0,10⟩, ⟨0,0⟩, ⟨10,0⟩] = [] :=
  ⟨by decide, by decide,
   (clip_polygon_empty_iff_final_short _ _ (by decide) (by decide)).mpr (by decide)⟩

/-- C8 witness: a concrete non-empty clip result is explicitly
closed. -/
theorem clip_polygon_result_closed_witness :
    clip_polygon [⟨1,1⟩, ⟨2,1⟩, ⟨2,2⟩, ⟨1,2⟩] [⟨0,10⟩, ⟨0,0⟩, ⟨10,0⟩] ≠ [] ∧
    (clip_polygon [⟨1,1⟩, ⟨2,1⟩, ⟨2,2⟩, ⟨1,2⟩] [⟨0,10⟩, ⟨0,0⟩, ⟨10,0⟩]).head? =
      (clip_polygon [⟨1,1⟩, ⟨2,1⟩, ⟨2,2⟩, ⟨1,2⟩] [⟨0,10⟩, ⟨0,0⟩, ⟨10,0⟩]).getLast? ∧
    3 ≤ (clip_polygon [⟨1,1⟩, ⟨2,1⟩, ⟨2,2⟩, ⟨1,2⟩] [⟨0,10⟩, ⟨0,0⟩, ⟨10,0⟩]).length :=
  ⟨by decide, (clip_polygon_result_closed _ _ (by decide)).1,
   (clip_polygon_result_closed _ _ (by decide)).2⟩

/-- C9 witness: a point outside the clip bounding box is classified
outside, and a pass retains only in-box vertices. -/
theorem is_inside_bbox_restriction_witness :
    (⟨0,10⟩ : Point) ∈ ([(⟨0,10⟩ : Point), ⟨0,0⟩, ⟨10,0⟩] : List Point) ∧
    (⟨0,0⟩ : Point) ∈ ([(⟨0,10⟩ : Point), ⟨0,0⟩, ⟨10,0⟩] : List Point) ∧
    inBBox [⟨0,10⟩, ⟨0,0⟩, ⟨10,0⟩] ⟨20,20⟩ = false ∧
    is_inside ⟨20,20⟩ ⟨0,10⟩ ⟨0,0⟩ [⟨0,10⟩, ⟨0,0⟩, ⟨10,0⟩] = false ∧
    ∀ q ∈ edgePass [⟨0,10⟩, ⟨0,0⟩, ⟨10,0⟩] ⟨0,10⟩ ⟨0,0⟩ [⟨1,1⟩, ⟨20,20⟩, ⟨2,1⟩],
      inBBox [⟨0,10⟩, ⟨0,0⟩, ⟨10,0⟩] q = true := by
  refine ⟨by decide, by decide, by decide, ?_, ?_⟩
  · exact (is_inside_bbox_restriction ⟨20,20⟩ ⟨0,10⟩ ⟨0,0⟩ [⟨0,10⟩, ⟨0,0⟩, ⟨10,0⟩]
      [⟨1,1⟩, ⟨20,20⟩, ⟨2,1⟩] (by decide) (by decide)).1 (by decide)
  · exact (is_inside_bbox_restriction ⟨20,20⟩ ⟨0,10⟩ ⟨0,0⟩ [⟨0,10⟩, ⟨0,0⟩, ⟨10,0⟩]
      [⟨1,1⟩, ⟨20,20⟩, ⟨2,1⟩] (by decide) (by decide)).2

end ConcreteEvaluation

lemma segContrib_both_inside {clip : List Point} {A B P Q : Point}
    (hP : is_inside P A B clip = true) (hQ : is_inside Q A B clip = true) :
    segContrib clip A B P Q = [Q] := by
  unfold segContrib
  rw [hP, hQ]

/-- One clip-edge pass on a 4-vertex list whose vertices are all
inside the edge's half-plane rotates the list by one position (each
vertex pair contributes its `Q`; the bounding-box filter keeps
everything; no adjacent duplicates arise). -/
lemma edgePass_all_inside (clip : List Point) (A B p q r s : Point)
    (hA : A ∈ clip) (hB : B ∈ clip)
    (hp : is_inside p A B clip = true) (hq : is_inside q A B clip = true)
    (hr : is_inside r A B clip = true) (hs : is_inside s A B clip = true)
    (hrq : r ≠ q) (hsr : s ≠ r) (hps : p ≠ s) :
    edgePass clip A B [p, q, r, s] = [q, r, s, p] := by
  have hraw : edgePassRaw clip A B [p, q, r, s] =
      segContrib clip A B p q ++ (segContrib clip A B q r ++ (segContrib clip A B r s ++
        (segContrib clip A B s p ++ []))) := by
    simp [edgePassRaw, List.range_succ]
  unfold edgePass
  rw [hraw, segContrib_both_inside hp hq, segContrib_both_inside hq hr,
      segContrib_both_inside hr hs, segContrib_both_inside hs hp]
  have hfq := is_inside_inBBox hA hB hq
  have hfr := is_inside_inBBox hA hB hr
  have hfs := is_inside_inBBox hA hB hs
  have hfp := is_inside_inBBox hA hB hp
  show dedupAdj (List.filter (fun t => inBBox clip t) [q, r, s, p]) = [q, r, s, p]
  rw [show List.filter (fun t => inBBox clip t) [q, r, s, p] = [q, r, s, p] from by
    simp [List.filter_cons, hfq, hfr, hfs, hfp]]
  simp [dedupAdj, dedupGo, hrq, hsr, hps]

/-- Running the clip-edge passes over any clip ring keeps a 4-vertex
subject whose vertices are inside every clip edge equal to a rotation
of itself: after `k` edges the output is the subject rotated by `k`. -/
lemma clipAfterEdges_rotate (c : List Point) (a b d e : Point)
    (hc : 0 < c.length)
    (hin : ∀ i, i < c.length → ∀ v, v ∈ [a, b, d, e] →
      is_inside v (c.getD i default) (c.getD ((i + 1) % c.length) default) c = true)
    (hba : b ≠ a) (hdb : d ≠ b) (hed : e ≠ d) (hae : a ≠ e) :
    ∀ k, k ≤ c.length → clipAfterEdges c [a, b, d, e] k = [a, b, d, e].rotate k := by
  intro k
  induction k with
  | zero => intro _; simp [clipAfterEdges]
  | succ n ih =>
      intro hk
      have hn : n < c.length := Nat.lt_of_succ_le hk
      have ihn := ih (Nat.le_of_lt hn)
      have hA : c.getD n default ∈ c := getD_mem_of_lt hn default
      have hB : c.getD ((n + 1) % c.length) default ∈ c :=
        getD_mem_of_lt (Nat.mod_lt _ hc) default
      have ha := hin n hn a (by simp)
      have hb := hin n hn b (by simp)
      have hd := hin n hn d (by simp)
      have he := hin n hn e (by simp)
      rw [clipAfterEdges, ihn]
      rw [← List.rotate_mod _ n, ← List.rotate_mod _ (n + 1),
          show ([a, b, d, e] : List Point).length = 4 from rfl]
      have h4 : n % 4 = 0 ∨ n % 4 = 1 ∨ n % 4 = 2 ∨ n % 4 = 3 := by omega
      rcases h4 with h4 | h4 | h4 | h4
      · rw [h4, show (n + 1) % 4 = 1 from by omega,
            show ([a, b, d, e] : List Point).rotate 0 = [a, b, d, e] from rfl,
            show ([a, b, d, e] : List Point).rotate 1 = [b, d, e, a] from rfl]
        exact edgePass_all_inside c _ _ a b d e hA hB ha hb hd he hdb hed hae
      · rw [h4, show (n + 1) % 4 = 2 from by omega,
            show ([a, b, d, e] : List Point).rotate 1 = [b, d, e, a] from rfl,
            show ([a, b, d, e] : List Point).rotate 2 = [d, e, a, b] from rfl]
        exact edgePass_all_inside c _ _ b d e a hA hB hb hd he ha hed hae hba
      · rw [h4, show (n + 1) % 4 = 3 from by omega,
            show ([a, b, d, e] : List Point).rotate 2 = [d, e, a, b] from rfl,
            show ([a, b, d, e] : List Point).rotate 3 = [e, a, b, d] from rfl]
        exact edgePass_all_inside c _ _ d e a b hA hB hd he ha hb hae hba hdb
      · rw [h4, show (n + 1) % 4 = 0 from by omega,
            show ([a, b, d, e] : List Point).rotate 3 = [e, a, b, d] from rfl,
            show ([a, b, d, e] : List Point).rotate 0 = [a, b, d, e] from rfl]
        exact edgePass_all_inside c _ _ e a b d hA hB he ha hb hd hba hdb hed

lemma closeRing_four (p q r s : Point) (h : s ≠ p) :
    closeRing [p, q, r, s] = [p, q, r, s, p] := by
  rw [closeRing_cons, if_pos]
  · rfl
  · rw [show ([p, q, r, s] : List Point).getLast (List.cons_ne_nil p [q, r, s]) = s from rfl]
    exact h

/-- C5: an axis-aligned rectangle subject whose four corners all pass
the code's inside test for every edge of the (convex) clip ring — the
operational reading of "lying fully inside", since a point is inside a
convex ring iff it is inside every edge half-plane, and membership in
the ring's bounding box follows — is returned by `clip_polygon`
unchanged up to a rotation of the vertex order plus the duplicated
closing vertex. -/
theorem clip_polygon_rect_inside_identity (c : List Point) (x1 x2 y1 y2 : ℚ)
    (hx : x1 ≠ x2) (hy : y1 ≠ y2) (hc : 3 ≤ c.length)
    (hin : ∀ i, i < c.length → ∀ v, v ∈ [(⟨x1,y1⟩ : Point), ⟨x2,y1⟩, ⟨x2,y2⟩, ⟨x1,y2⟩] →
      is_inside v (c.getD i default) (c.getD ((i + 1) % c.length) default) c = true) :
    ∃ k, clip_polygon [⟨x1,y1⟩, ⟨x2,y1⟩, ⟨x2,y2⟩, ⟨x1,y2⟩] c =
      (([(⟨x1,y1⟩ : Point), ⟨x2,y1⟩, ⟨x2,y2⟩, ⟨x1,y2⟩].rotate k) ++
        [([(⟨x1,y1⟩ : Point), ⟨x2,y1⟩, ⟨x2,y2⟩, ⟨x1,y2⟩].rotate k).headD default]) := by
  refine ⟨c.length, ?_⟩
  have hba : (⟨x2,y1⟩ : Point) ≠ ⟨x1,y1⟩ := fun h => hx (congrArg Point.x h).symm
  have hdb : (⟨x2,y2⟩ : Point) ≠ ⟨x2,y1⟩ := fun h => hy (congrArg Point.y h).symm
  have hed : (⟨x1,y2⟩ : Point) ≠ ⟨x2,y2⟩ := fun h => hx (congrArg Point.x h)
  have hae : (⟨x1,y1⟩ : Point) ≠ ⟨x1,y2⟩ := fun h => hy (congrArg Point.y h)
  have hrot := clipAfterEdges_rotate c ⟨x1,y1⟩ ⟨x2,y1⟩ ⟨x2,y2⟩ ⟨x1,y2⟩ (by omega) hin
    hba hdb hed hae c.length (le_refl _)
  simp only [clip_polygon]
  rw [if_neg (by simp; omega)]
  rw [hrot]
  rw [if_neg (by rw [List.length_rotate]; simp)]
  rw [← List.rotate_mod _ c.length,
      show ([(⟨x1,y1⟩ : Point), ⟨x2,y1⟩, ⟨x2,y2⟩, ⟨x1,y2⟩] : List Point).length = 4 from rfl]
  have h4 : c.length % 4 = 0 ∨ c.length % 4 = 1 ∨ c.length % 4 = 2 ∨ c.length % 4 = 3 := by
    omega
  rcases h4 with h4 | h4 | h4 | h4
  · rw [h4,
      show ([(⟨x1,y1⟩ : Point), ⟨x2,y1⟩, ⟨x2,y2⟩, ⟨x1,y2⟩] : List Point).rotate 0
        = [⟨x1,y1⟩, ⟨x2,y1⟩, ⟨x2,y2⟩, ⟨x1,y2⟩] from rfl,
      closeRing_four _ _ _ _ hae.symm]
    rfl
  · rw [h4,
      show ([(⟨x1,y1⟩ : Point), ⟨x2,y1⟩, ⟨x2,y2⟩, ⟨x1,y2⟩] : List Point).rotate 1
        = [⟨x2,y1⟩, ⟨x2,y2⟩, ⟨x1,y2⟩, ⟨x1,y1⟩] from rfl,
      closeRing_four _ _ _ _ hba.symm]
    rfl
  · rw [h4,
      show ([(⟨x1,y1⟩ : Point), ⟨x2,y1⟩, ⟨x2,y2⟩, ⟨x1,y2⟩] : List Point).rotate 2
        = [⟨x2,y2⟩, ⟨x1,y2⟩, ⟨x1,y1⟩, ⟨x2,y1⟩] from rfl,
      closeRing_four _ _ _ _ hdb.symm]
    rfl
  · rw [h4,
      show ([(⟨x1,y1⟩ : Point), ⟨x2,y1⟩, ⟨x2,y2⟩, ⟨x1,y2⟩] : List Point).rotate 3
        = [⟨x1,y2⟩, ⟨x1,y1⟩, ⟨x2,y1⟩, ⟨x2,y2⟩] from rfl,
      closeRing_four _ _ _ _ hed.symm]
    rfl

section ConcreteEvaluationTwo

attribute [local semireducible] Rat.mul Rat.add Rat.sub Rat.inv

/-- C5 witness: the unit-side square `(1,1)-(2,1)-(2,2)-(1,2)` inside
the convex clip triangle `(0,10)-(0,0)-(10,0)` is returned rotated and
explicitly closed. -/
theorem clip_polygon_rect_inside_identity_witness :
    (1 : ℚ) ≠ 2 ∧
    (∀ i, i < ([(⟨0,10⟩ : Point), ⟨0,0⟩, ⟨10,0⟩] : List Point).length →
      ∀ v, v ∈ [(⟨1,1⟩ : Point), ⟨2,1⟩, ⟨2,2⟩, ⟨1,2⟩] →
        is_inside v (List.getD [(⟨0,10⟩ : Point), ⟨0,0⟩, ⟨10,0⟩] i default)
          (List.getD [(⟨0,10⟩ : Point), ⟨0,0⟩, ⟨10,0⟩]
            ((i + 1) % ([(⟨0,10⟩ : Point), ⟨0,0⟩, ⟨10,0⟩] : List Point).length) default)
          [⟨0,10⟩, ⟨0,0⟩, ⟨10,0⟩] = true) ∧
    ∃ k, clip_polygon [⟨1,1⟩, ⟨2,1⟩, ⟨2,2⟩, ⟨1,2⟩] [⟨0,10⟩, ⟨0,0⟩, ⟨10,0⟩] =
      (([(⟨1,1⟩ : Point), ⟨2,1⟩, ⟨2,2⟩, ⟨1,2⟩].rotate k) ++
        [([(⟨1,1⟩ : Point), ⟨2,1⟩, ⟨2,2⟩, ⟨1,2⟩].rotate k).headD default]) :=
  ⟨by norm_num, by decide,
   clip_polygon_rect_inside_identity [⟨0,10⟩, ⟨0,0⟩, ⟨10,0⟩] 1 2 1 2
     (by norm_num) (by norm_num) (by decide) (by decide)⟩

end ConcreteEvaluationTwo
